import Mathlib

/-!
Verification of planner2ics (src/app.py) against its specification.

The development shallowly embeds the pure core of src/app.py:
time/title normalization, the PDF line extractor, the event builder
(df_to_ics) and the export block.  External collaborators (pdfplumber,
pandas parsing, icalendar serialization, unidecode) are modelled on the
domain the program uses them on, as the spec directs.
-/

set_option maxRecDepth 4000
set_option maxHeartbeats 2000000

namespace Planner2Ics

/-! ## Python string primitives -/

/-- Python whitespace set used by str.strip / regex \s (ASCII fragment). -/
def pySpace (c : Char) : Bool :=
  c = ' ' || c = '\t' || c = '\n' || c = '\r' || c = '\x0b' || c = '\x0c'

def isDigitC (c : Char) : Bool := 48 ≤ c.toNat && c.toNat ≤ 57

def digitVal (c : Char) : Nat := c.toNat - 48

/-- Word character for regex \b (ASCII fragment of Python \w). -/
def isWordC (c : Char) : Bool :=
  ('a' ≤ c && c ≤ 'z') || ('A' ≤ c && c ≤ 'Z') || isDigitC c || c = '_'

def stripWS (cs : List Char) : List Char :=
  ((cs.dropWhile pySpace).reverse.dropWhile pySpace).reverse

/-- Python str.strip() with no argument. -/
def pyStrip (s : String) : String := String.mk (stripWS s.data)

def digitsVal : List Char → Nat → Nat
  | [], acc => acc
  | c :: cs, acc => digitsVal cs (acc * 10 + digitVal c)

/-- Value of a nonempty all-digit character run. -/
def pyDigits? (cs : List Char) : Option Nat :=
  if cs ≠ [] && cs.all isDigitC then some (digitsVal cs 0) else none

/-- Python int(str): strip whitespace, optional sign, decimal digits.
(Underscore digit grouping is not modelled; no input here uses it.) -/
def pyInt (s : String) : Option Int :=
  match stripWS s.data with
  | '-' :: rest => (pyDigits? rest).map (fun n => -(n : Int))
  | '+' :: rest => (pyDigits? rest).map (fun n => (n : Int))
  | cs => (pyDigits? cs).map (fun n => (n : Int))

/-- Python format spec 02d: zero-pad to width 2 (sign included in width). -/
def fmt02 (n : Int) : String :=
  if 0 ≤ n ∧ n < 10 then "0" ++ toString n else toString n

/-- Python str.split(sep) for a one-character separator. -/
def splitOnC (sep : Char) (cs : List Char) : List (List Char) :=
  cs.foldr
    (fun c acc =>
      if c = sep then [] :: acc
      else match acc with
           | [] => [[c]]
           | g :: gs => (c :: g) :: gs)
    [[]]

def splitColon (cs : List Char) : List (List Char) := splitOnC ':' cs

/-- Python str.upper() (ASCII fragment). -/
def pyUpper (s : String) : String := String.mk (s.data.map Char.toUpper)

/-- Models the external unidecode collaborator: ASCII is kept unchanged,
common Dutch accented letters are transliterated. -/
def unidecodeChar (c : Char) : Char :=
  if c.toNat < 128 then c
  else if c ∈ ['à', 'á', 'â', 'ä'] then 'a'
  else if c ∈ ['è', 'é', 'ê', 'ë'] then 'e'
  else if c ∈ ['ì', 'í', 'î', 'ï'] then 'i'
  else if c ∈ ['ò', 'ó', 'ô', 'ö'] then 'o'
  else if c ∈ ['ù', 'ú', 'û', 'ü'] then 'u'
  else c

def unidecodeStr (s : String) : String := String.mk (s.data.map unidecodeChar)

/-- Python substring containment (needle in hay), for nonempty needles. -/
def containsSub (needle : List Char) : List Char → Bool
  | [] => needle.isPrefixOf []
  | c :: cs => needle.isPrefixOf (c :: cs) || containsSub needle cs

/-! ## Time/title helpers from src/app.py -/

/-- normalize_time from src/app.py lines 47-49:
h, m = t.strip().split(":"); return two 02d-formatted fields.
Returns none exactly where Python raises (wrong field count, bad int). -/
def normalize_time (t : String) : Option String :=
  match splitColon (stripWS t.data) with
  | [h, m] => do
      let hv ← pyInt (String.mk h)
      let mv ← pyInt (String.mk m)
      pure (fmt02 hv ++ ":" ++ fmt02 mv)
  | _ => none

/-- classify_shift from src/app.py lines 51-53.
none exactly where int() raises on the first colon-field. -/
def classify_shift (start_hhmm : String) : Option String :=
  (pyInt (String.mk ((splitColon start_hhmm.data).headD []))).map
    (fun h => if 18 ≤ h ∨ h < 6 then "Nachtdienst" else "Dagdienst")

/-! ## Calendar dates and naive datetimes -/

structure Date where
  year : Nat
  month : Nat
  day : Nat
  deriving DecidableEq, Repr

def isLeap (y : Nat) : Bool := (y % 4 = 0 && y % 100 ≠ 0) || y % 400 = 0

def daysInMonth (y m : Nat) : Nat :=
  if m = 2 then (if isLeap y then 29 else 28)
  else if m = 4 ∨ m = 6 ∨ m = 9 ∨ m = 11 then 30
  else 31

/-- Valid proleptic-Gregorian date in Python's datetime range. -/
def dateOk (y m d : Nat) : Prop :=
  1 ≤ y ∧ y ≤ 9999 ∧ 1 ≤ m ∧ m ≤ 12 ∧ 1 ≤ d ∧ d ≤ daysInMonth y m

instance (y m d : Nat) : Decidable (dateOk y m d) := by unfold dateOk; infer_instance

/-- datetime + timedelta(days=1): the next calendar day. -/
def nextDay (d : Date) : Date :=
  if d.day < daysInMonth d.year d.month then ⟨d.year, d.month, d.day + 1⟩
  else if d.month < 12 then ⟨d.year, d.month + 1, 1⟩
  else ⟨d.year + 1, 1, 1⟩

def padZeros (k : Nat) (s : String) : String :=
  if s.length < k then String.mk (List.replicate (k - s.length) '0') ++ s else s

/-- Python date.isoformat(). -/
def Date.iso (d : Date) : String :=
  padZeros 4 (toString d.year) ++ "-" ++ padZeros 2 (toString d.month) ++ "-" ++
    padZeros 2 (toString d.day)

/-- Naive wall-clock datetime (zone information is tracked on the event). -/
structure DateTime where
  date : Date
  hour : Nat
  minute : Nat
  deriving DecidableEq, Repr

/-- Chronological key; on valid datetimes comparison of keys is exactly
Python's datetime comparison. -/
def DateTime.key (t : DateTime) : Nat :=
  (((t.date.year * 13 + t.date.month) * 32 + t.date.day) * 24 + t.hour) * 60 + t.minute

def DateTime.le (a b : DateTime) : Bool := a.key ≤ b.key

/-- Models the external pandas.to_datetime collaborator on the date
strings this program produces and consumes: an optionally space-padded
YYYY-MM-DD form; errors="coerce" yields none (NaT) elsewhere. -/
def pd_to_datetime (s : String) : Option Date :=
  match (splitOnC '-' (stripWS s.data)).map pyDigits? with
  | [some y, some m, some d] => if dateOk y m d then some ⟨y, m, d⟩ else none
  | _ => none

/-! ## SHA-1 (hashlib.sha1, over UTF-8 bytes), and build_uid -/

def M32 : Nat := 4294967296

def rotl32 (k x : Nat) : Nat := ((x <<< k) % M32) ||| (x >>> (32 - k))

def sha1_f (i b c d : Nat) : Nat :=
  if i < 20 then (b &&& c) ||| ((b ^^^ 4294967295) &&& d)
  else if i < 40 then b ^^^ c ^^^ d
  else if i < 60 then (b &&& c) ||| (b &&& d) ||| (c &&& d)
  else b ^^^ c ^^^ d

def sha1_k (i : Nat) : Nat :=
  if i < 20 then 0x5A827999 else if i < 40 then 0x6ED9EBA1
  else if i < 60 then 0x8F1BBCDC else 0xCA62C1D6

def sha1_words16 (chunk : List Nat) : Array Nat :=
  (List.range 16).foldl
    (fun w i =>
      w.push ((chunk.getD (4 * i) 0) <<< 24 ||| (chunk.getD (4 * i + 1) 0) <<< 16 |||
              (chunk.getD (4 * i + 2) 0) <<< 8 ||| chunk.getD (4 * i + 3) 0))
    (Array.mkEmpty 16)

def sha1_words (chunk : List Nat) : Array Nat :=
  (List.range 64).foldl
    (fun w j =>
      let i := j + 16
      w.push (rotl32 1 ((w.getD (i - 3) 0) ^^^ (w.getD (i - 8) 0) ^^^
                        (w.getD (i - 14) 0) ^^^ (w.getD (i - 16) 0))))
    (sha1_words16 chunk)

def sha1_rounds (w : Array Nat) (h : Nat × Nat × Nat × Nat × Nat) :
    Nat × Nat × Nat × Nat × Nat :=
  (List.range 80).foldl
    (fun st i =>
      let (a, b, c, d, e) := st
      let temp := (rotl32 5 a + sha1_f i b c d + e + sha1_k i + w.getD i 0) % M32
      (temp, a, rotl32 30 b, c, d))
    h

def sha1_compress (h : Nat × Nat × Nat × Nat × Nat) (chunk : List Nat) :
    Nat × Nat × Nat × Nat × Nat :=
  let (a, b, c, d, e) := sha1_rounds (sha1_words chunk) h
  let (h0, h1, h2, h3, h4) := h
  ((h0 + a) % M32, (h1 + b) % M32, (h2 + c) % M32, (h3 + d) % M32, (h4 + e) % M32)

def sha1_pad (msg : List Nat) : List Nat :=
  let ml := msg.length * 8
  let zeros := (120 - ((msg.length + 1) % 64)) % 64
  msg ++ [128] ++ List.replicate zeros 0 ++
    [(ml >>> 56) % 256, (ml >>> 48) % 256, (ml >>> 40) % 256, (ml >>> 32) % 256,
     (ml >>> 24) % 256, (ml >>> 16) % 256, (ml >>> 8) % 256, ml % 256]

def chunks64 (l : List Nat) : List (List Nat) :=
  if h : l = [] then []
  else l.take 64 :: chunks64 (l.drop 64)
termination_by l.length
decreasing_by
  have h' : 0 < l.length := List.length_pos.mpr h
  simp [List.length_drop]
  omega

def hexDigit (n : Nat) : Char :=
  if n < 10 then Char.ofNat (48 + n) else Char.ofNat (87 + n)

def hex8 (n : Nat) : String :=
  String.mk ((List.range 8).map (fun i => hexDigit ((n >>> (28 - 4 * i)) % 16)))

def sha1_hex_bytes (msg : List Nat) : String :=
  let (h0, h1, h2, h3, h4) :=
    (chunks64 (sha1_pad msg)).foldl sha1_compress
      (0x67452301, 0xEFCDAB89, 0x98BADCFE, 0x10325476, 0xC3D2E1F0)
  hex8 h0 ++ hex8 h1 ++ hex8 h2 ++ hex8 h3 ++ hex8 h4

/-- hashlib.sha1(s.encode("utf-8")).hexdigest() -/
def sha1_hexdigest (s : String) : String :=
  sha1_hex_bytes (s.toUTF8.toList.map (fun b => b.toNat))

/-- build_uid from src/app.py lines 55-57. -/
def build_uid (day : Nat) (start «end» title loc : String) : String :=
  let raw := toString day ++ "-" ++ start ++ "-" ++ «end» ++ "-" ++ title ++ "-" ++ loc
  sha1_hexdigest raw ++ "@planner2ics"

/-! ## Canonical records, configuration, calendar events -/

/-- One row of the normalized table (and one record of the PDF extractor);
all six fields are strings, as in the DataFrame the program builds. -/
structure Row where
  date : String
  start : String
  «end» : String
  title : String
  location : String
  notes : String
  deriving DecidableEq, Repr

/-- One export run's configuration (sidebar state passed to df_to_ics). -/
structure Config where
  tz_name : String
  reminder_value : Int
  reminder_unit : String
  force_local_times : Bool
  no_reminder : Bool
  deriving DecidableEq, Repr

structure AlarmRec where
  action : String
  description : String
  /-- trigger offset, minutes relative to dtstart (negative = before). -/
  triggerMinutes : Int
  deriving DecidableEq, Repr

/-- VEVENT as handed to the icalendar serializer (dtstamp, a pure
generation timestamp, is metadata outside the embedded state). -/
structure VEvent where
  summary : String
  location : Option String
  description : Option String
  /-- the named timezone both timestamps carry; none = floating. -/
  tzid : Option String
  dtstart : DateTime
  dtend : DateTime
  uid : String
  alarm : Option AlarmRec
  deriving DecidableEq, Repr

/-- map(int, str(x).split(":")) unpacked into exactly two values;
none where Python raises ValueError. -/
def parse_hm (s : String) : Option (Int × Int) :=
  match splitColon s.data with
  | [a, b] => do
      let x ← pyInt (String.mk a)
      let y ← pyInt (String.mk b)
      pure (x, y)
  | _ => none

abbrev timeFieldOk (h m : Int) : Prop := 0 ≤ h ∧ h < 24 ∧ 0 ≤ m ∧ m < 60

/-- The reminder timedelta of src/app.py lines 161-166, in minutes. -/
def reminderDelta (cfg : Config) : Int :=
  if cfg.reminder_unit = "dagen" then cfg.reminder_value * 1440
  else if cfg.reminder_unit = "uren" then cfg.reminder_value * 60
  else cfg.reminder_value

/-- Event construction of src/app.py lines 135-168 for one row whose date
parsed to d and whose times parsed and validated to sh:sm and eh:em. -/
def buildEvent (cfg : Config) (d : Date) (sh sm eh em : Nat) (r : Row) : VEvent :=
  let startEndTz :=
    if cfg.force_local_times then
      let s : DateTime := ⟨d, sh, sm⟩
      let e : DateTime := ⟨d, eh, em⟩
      (s, if DateTime.le e s then { e with date := nextDay e.date } else e,
       (none : Option String))
    else
      let s : DateTime := ⟨d, sh, sm⟩
      let e : DateTime := { s with hour := eh, minute := em }
      (s, if DateTime.le e s then { e with date := nextDay e.date } else e,
       some cfg.tz_name)
  let title := if r.title = "" then "Werkdienst" else r.title
  let location := r.location
  let desc := r.notes
  { summary := title
    location := if location = "" then none else some location
    description := if desc = "" then none else some desc
    tzid := startEndTz.2.2
    dtstart := startEndTz.1
    dtend := startEndTz.2.1
    uid := build_uid d.day r.start r.«end» title location
    alarm :=
      if cfg.no_reminder then none
      else some
        { action := "DISPLAY"
          description :=
            if location ≠ "" then "Herinnering: " ++ title ++ " — " ++ location
            else "Herinnering: " ++ title
          triggerMinutes := -(reminderDelta cfg) } }

/-- The per-row body of the df_to_ics loop (src/app.py lines 128-170):
ok none     = row skipped (date is NaT),
ok (some e) = event appended,
error       = uncaught Python exception aborting df_to_ics. -/
def eventOfRow (cfg : Config) (r : Row) : Except String (Option VEvent) :=
  match pd_to_datetime r.date with
  | none => .ok none
  | some d =>
    match parse_hm r.start with
    | none => .error "ValueError: invalid start time"
    | some (sh, sm) =>
      match parse_hm r.«end» with
      | none => .error "ValueError: invalid end time"
      | some (eh, em) =>
        if timeFieldOk sh sm then
          if timeFieldOk eh em then
            .ok (some (buildEvent cfg d sh.toNat sm.toNat eh.toNat em.toNat r))
          else .error "ValueError: end time out of range"
        else .error "ValueError: start time out of range"

/-- df_to_ics from src/app.py lines 121-172, as the list of VEVENTs the
serializer receives; an error is an uncaught exception. -/
def df_to_ics (cfg : Config) : List Row → Except String (List VEvent)
  | [] => .ok []
  | r :: rs => do
      let ev? ← eventOfRow cfg r
      let rest ← df_to_ics cfg rs
      pure (match ev? with | none => rest | some e => e :: rest)

/-! ## Tabular-path normalization helpers -/

/-- The _auto_title fallback from src/app.py lines 224-231. -/
def _auto_title (r : Row) : String :=
  let t := pyStrip r.title
  if t ≠ "" then t
  else
    match pyInt (String.mk ((splitColon r.start.data).headD [])) with
    | some h => if 18 ≤ h ∨ h < 6 then "Nachtdienst" else "Dagdienst"
    | none => "Werkdienst"

/-- The anchored regex of _norm_time: \s*(\d{1,2}):(\d{2})\s* matched at
the start of the string (re.match); returns the two group values. -/
def matchNormTime (cs : List Char) : Option (Nat × Nat) :=
  match cs.dropWhile pySpace with
  | a :: b :: ':' :: m1 :: m2 :: _ =>
      if isDigitC a && isDigitC b && isDigitC m1 && isDigitC m2 then
        some (digitsVal [a, b] 0, digitsVal [m1, m2] 0)
      else none
  | a :: ':' :: m1 :: m2 :: _ =>
      if isDigitC a && isDigitC m1 && isDigitC m2 then
        some (digitsVal [a] 0, digitsVal [m1, m2] 0)
      else none
  | _ => none

/-- The _norm_time helper from src/app.py lines 234-236: reformat a leading
H:MM / HH:MM token, pass everything else through unchanged. -/
def _norm_time (x : String) : String :=
  match matchNormTime x.data with
  | some (h, m) => fmt02 (h : Int) ++ ":" ++ fmt02 (m : Int)
  | none => x

/-! ## The regular-expression scanners of the PDF path

Each regex of src/app.py lines 23-26 is embedded as a direct scanner with
re.search semantics (leftmost match).  For these particular patterns the
greedy quantifiers allow no productive backtracking, so the scanners are
plain deterministic functions. -/

/-- One \d{1,2}:\d{2} token at the current position; returns the matched
characters (the group) and the remaining input. -/
def matchOneTime (cs : List Char) : Option (List Char × List Char) :=
  match cs with
  | a :: b :: c :: rest =>
      if isDigitC a && isDigitC b && c = ':' then
        match rest with
        | m1 :: m2 :: rest2 =>
            if isDigitC m1 && isDigitC m2 then some ([a, b, ':', m1, m2], rest2)
            else none
        | _ => none
      else if isDigitC a && b = ':' then
        match rest with
        | m2 :: rest2 =>
            if isDigitC c && isDigitC m2 then some ([a, ':', c, m2], rest2)
            else none
        | [] => none
      else none
  | _ => none

/-- TIME_RE = (\d{1,2}:\d{2})\s*[–-]\s*(\d{1,2}:\d{2}) at the current
position; returns the two groups. -/
def matchTimePair (cs : List Char) : Option (List Char × List Char) := do
  let (g1, r1) ← matchOneTime cs
  match r1.dropWhile pySpace with
  | c :: r2 =>
      if c = '-' ∨ c = '–' then
        let (g2, _) ← matchOneTime (r2.dropWhile pySpace)
        pure (g1, g2)
      else none
  | [] => none

/-- TIME_RE.search: leftmost match. -/
def searchTimePair : List Char → Option (List Char × List Char)
  | [] => none
  | c :: cs =>
      match matchTimePair (c :: cs) with
      | some r => some r
      | none => searchTimePair cs

/-- The (MA|DI|WO|DO|VR|ZA|ZO) alternation, case-insensitively, at the
current position. -/
def weekdayAbbrevAt (cs : List Char) : Option (List Char) :=
  match cs with
  | a :: b :: rest =>
      let u := [a.toUpper, b.toUpper]
      if u = ['M', 'A'] ∨ u = ['D', 'I'] ∨ u = ['W', 'O'] ∨ u = ['D', 'O'] ∨
         u = ['V', 'R'] ∨ u = ['Z', 'A'] ∨ u = ['Z', 'O'] then some rest
      else none
  | _ => none

/-- Day pattern (\d{1,2})\s*(weekday)\b once the (^|\s) anchor held;
returns the day digits (group 2). -/
def matchDayFrom (cs : List Char) : Option (List Char) :=
  match cs with
  | a :: rest =>
      if isDigitC a then
        let dsRest :=
          match rest with
          | b :: r2 => if isDigitC b then ([a, b], r2) else ([a], rest)
          | [] => ([a], [])
        match weekdayAbbrevAt (dsRest.2.dropWhile pySpace) with
        | some rest4 =>
            match rest4 with
            | [] => some dsRest.1
            | c :: _ => if isWordC c then none else some dsRest.1
        | none => none
      else none
  | [] => none

/-- DAY_RE.search: scan positions; the boolean says whether the current
position is at start-of-string or right after a whitespace character. -/
def searchDay : Bool → List Char → Option (List Char)
  | _, [] => none
  | anchor, c :: cs =>
      match (if anchor then matchDayFrom (c :: cs) else none) with
      | some ds => some ds
      | none => searchDay (pySpace c) cs

/-- An exactly-four-digit token \b(\d{4})\b at the current position. -/
def fourDigitToken : List Char → Bool
  | a :: b :: c :: d :: rest =>
      isDigitC a && isDigitC b && isDigitC c && isDigitC d &&
      (match rest with | [] => true | e :: _ => !isWordC e)
  | _ => false

/-- ADDRESS_RE.search as a match test; the boolean tracks whether the
previous character was a word character (for the leading \b). -/
def addressSearch : Bool → List Char → Bool
  | _, [] => false
  | prevWord, c :: cs =>
      (!prevWord && fourDigitToken (c :: cs)) || addressSearch (isWordC c) cs

def addressMatch (s : String) : Bool := addressSearch false s.data

def dropLiteral : List Char → List Char → Option (List Char)
  | [], cs => some cs
  | _ :: _, [] => none
  | l :: ls, c :: cs => if c = l then dropLiteral ls cs else none

/-- PERIODE\s*:\s*([A-Z]+)\s+(\d{4}) at the current position (the input
is already uppercased); returns (month-name group, year group value). -/
def matchPeriodeFrom (cs : List Char) : Option (String × Nat) := do
  let r1 ← dropLiteral ['P', 'E', 'R', 'I', 'O', 'D', 'E'] cs
  match r1.dropWhile pySpace with
  | ':' :: r3 =>
      let r4 := r3.dropWhile pySpace
      let letters := r4.takeWhile (fun c => 'A' ≤ c && c ≤ 'Z')
      if letters = [] then none
      else
        let r5 := r4.dropWhile (fun c => 'A' ≤ c && c ≤ 'Z')
        match r5 with
        | sp :: _ =>
            if pySpace sp then
              match r5.dropWhile pySpace with
              | a :: b :: c :: d :: _ =>
                  if isDigitC a && isDigitC b && isDigitC c && isDigitC d then
                    some (String.mk letters, digitsVal [a, b, c, d] 0)
                  else none
              | _ => none
            else none
        | [] => none
  | _ => none

/-- PERIODE_RE.search: leftmost match. -/
def searchPeriode : List Char → Option (String × Nat)
  | [] => none
  | c :: cs =>
      match matchPeriodeFrom (c :: cs) with
      | some r => some r
      | none => searchPeriode cs

/-- MONTHS_NL from src/app.py lines 19-22. -/
def MONTHS_NL (s : String) : Option Nat :=
  if s = "JANUARI" then some 1 else if s = "FEBRUARI" then some 2
  else if s = "MAART" then some 3 else if s = "APRIL" then some 4
  else if s = "MEI" then some 5 else if s = "JUNI" then some 6
  else if s = "JULI" then some 7 else if s = "AUGUSTUS" then some 8
  else if s = "SEPTEMBER" then some 9 else if s = "OKTOBER" then some 10
  else if s = "NOVEMBER" then some 11 else if s = "DECEMBER" then some 12
  else none

/-- The body of detect_month_year's loop for one line. -/
def detect_line (line : String) : Option (Nat × Nat) :=
  match searchPeriode (unidecodeStr (pyUpper line)).data with
  | some (name, y) => (MONTHS_NL name).map (fun m => (m, y))
  | none => none

/-- detect_month_year from src/app.py lines 29-37, over the text's lines. -/
def detect_month_year : List String → Option (Nat × Nat)
  | [] => none
  | l :: ls =>
      match detect_line l with
      | some r => some r
      | none => detect_month_year ls

/-! ## parse_pdf_schedule (src/app.py lines 59-93) -/

/-- Validity domain of datetime(year, month, day, hour, minute) for
possibly-signed hour/minute values. -/
abbrev dtOk (y m d : Nat) (hh mm : Int) : Prop :=
  dateOk y m d ∧ 0 ≤ hh ∧ hh < 24 ∧ 0 ≤ mm ∧ mm < 60

/-- One iteration of the line loop of parse_pdf_schedule (lines 68-92).
State: (records so far, current location).

Source fidelity note: in src/app.py lines 71-73 the body of the
ADDRESS_RE guard is dedented out of the if-statement (Python rejects the
file with an IndentationError); the comment on line 72 documents the
intended behavior, which is embedded here: a line matching ADDRESS_RE
replaces the current location with that line's own stripped content. -/
def pdfStep (month year : Nat) (st : List Row × Option String) (line : String) :
    List Row × Option String :=
  let u := unidecodeStr line
  let loc := if addressMatch u then some (pyStrip u) else st.2
  match searchDay true u.data, searchTimePair u.data with
  | some dayDigits, some (g1, g2) =>
      if containsSub ['O', 'F', 'F'] (pyUpper u).data then (st.1, loc)
      else
        let day := digitsVal dayDigits 0
        match normalize_time (String.mk g1), normalize_time (String.mk g2) with
        | some start_h, some end_h =>
            match pyInt (String.mk (start_h.data.take 2)),
                  pyInt (String.mk (start_h.data.drop 3)) with
            | some hh, some mm =>
                if dtOk year month day hh mm then
                  (st.1 ++ [{ date := Date.iso ⟨year, month, day⟩
                              start := start_h
                              «end» := end_h
                              title := (classify_shift start_h).getD ""
                              location := loc.getD ""
                              notes := "" }], loc)
                else (st.1, loc)
            | _, _ => (st.1, loc)
        | _, _ => (st.1, loc)
  | _, _ => (st.1, loc)

/-- parse_pdf_schedule from src/app.py lines 59-93 (given the lines the
pdfplumber collaborator extracted); error = the ValueError of line 65. -/
def parse_pdf_schedule (lines : List String) : Except String (List Row) :=
  match detect_month_year lines with
  | none => .error "Kon 'Periode : <MAAND> <JAAR>' niet vinden in de PDF."
  | some (month, year) =>
      if month = 0 ∨ year = 0 then
        .error "Kon 'Periode : <MAAND> <JAAR>' niet vinden in de PDF."
      else .ok (lines.foldl (pdfStep month year) ([], none)).1

/-! ## The export block (src/app.py lines 277-285) -/

def dateKey (d : Date) : Nat := (d.year * 13 + d.month) * 32 + d.day

/-- pd.to_datetime(norm["date"]).min(): raises if any date fails to
parse (none here); NaT on an empty column (none here as well). -/
def derive_first_date (rows : List Row) : Option Date :=
  if (rows.map (fun r => pd_to_datetime r.date)).all Option.isSome then
    match (rows.map (fun r => pd_to_datetime r.date)).filterMap id with
    | [] => none
    | d :: ds => some (ds.foldl (fun a b => if dateKey b < dateKey a then b else a) d)
  else none

/-- The suggested download filename (lines 279-283): derived from the
earliest date, with the generic fallback on any exception. -/
def export_filename (rows : List Row) : String :=
  match derive_first_date rows with
  | some d => "planning_" ++ toString d.year ++ "_" ++ fmt02 (d.month : Int) ++ ".ics"
  | none => "planning.ics"

/-- The whole export block: the calendar events are produced first
(line 278, outside any try), then the filename (lines 279-283). -/
def export_block (cfg : Config) (rows : List Row) :
    Except String (List VEvent × String) := do
  let evs ← df_to_ics cfg rows
  pure (evs, export_filename rows)

/-- Boolean test: the string is a zero-padded valid 24-hour HH:MM time. -/
def isValid24h (s : String) : Bool :=
  match s.data with
  | [a, b, ':', c, d] =>
      isDigitC a && isDigitC b && isDigitC c && isDigitC d &&
      digitsVal [a, b] 0 < 24 && digitsVal [c, d] 0 < 60
  | _ => false

end Planner2Ics

/-! # Claims -/

namespace Planner2Ics

/-- C3 counterexample. The spec claims the single-digit-minute input
"9:5" is invalid and is not accepted by normalize_time; in fact
normalize_time accepts it and zero-pads it to "09:05"
(int("9") = 9, int("5") = 5, then 02d formatting). -/
theorem c3_counterexample : normalize_time "9:5" = some "09:05" := by rfl

/-- C3 (amended): for every valid zero-padded HH:MM input, normalize_time
returns exactly that 5-character, zero-padded, value-preserving string;
however the single-digit-minute input "9:5" is ALSO accepted and
normalized to "09:05" rather than rejected (only the tabular-path
_norm_time leaves "9:5" unchanged). -/
theorem c3_normalize_time_amended :
    (∀ (h : Fin 24) (m : Fin 60),
      normalize_time (fmt02 ((h : Nat) : Int) ++ ":" ++ fmt02 ((m : Nat) : Int)) =
        some (fmt02 ((h : Nat) : Int) ++ ":" ++ fmt02 ((m : Nat) : Int))) ∧
    normalize_time "9:5" = some "09:05" ∧
    _norm_time "9:5" = "9:5" := by
  refine ⟨by decide, by rfl, by rfl⟩

/-- C5: for every start string whose leading colon-field parses as an
integer h, classify_shift yields "Nachtdienst" exactly when h ≥ 18 or
h < 6, and "Dagdienst" exactly when 6 ≤ h ≤ 17; and the tabular path's
_auto_title applies the identical rule to rows whose title is empty
after stripping. -/
theorem c5_shift_classification (s : String) (h : Int)
    (hp : pyInt (String.mk ((splitColon s.data).headD [])) = some h) :
    (classify_shift s = some "Nachtdienst" ↔ (18 ≤ h ∨ h < 6)) ∧
    (classify_shift s = some "Dagdienst" ↔ (6 ≤ h ∧ h ≤ 17)) ∧
    (∀ r : Row, r.start = s → pyStrip r.title = "" →
      _auto_title r = (classify_shift s).getD "Werkdienst") := by
  have hcs : classify_shift s =
      some (if 18 ≤ h ∨ h < 6 then "Nachtdienst" else "Dagdienst") := by
    unfold classify_shift; rw [hp]; rfl
  refine ⟨?_, ?_, ?_⟩
  · rw [hcs]; split_ifs with hc
    · simp [hc]
    · simp only [Option.some.injEq]
      constructor
      · intro he; exact absurd he (by decide)
      · intro hcc; exact absurd hcc hc
  · rw [hcs]; split_ifs with hc
    · simp only [Option.some.injEq]
      constructor
      · intro he; exact absurd he (by decide)
      · intro hcc; omega
    · simp only [Option.some.injEq, true_iff]
      constructor <;> omega
  · intro r hrs hrt
    rw [hcs]
    simp only [_auto_title]
    rw [hrt, hrs, hp]
    simp

/-- C5 witness: the rule at the concrete start time "22:00". -/
theorem c5_witness : classify_shift "22:00" = some "Nachtdienst" :=
  (c5_shift_classification "22:00" 22 rfl).1.mpr (by omega)

/-- C7: a PDF line containing "OFF" (case-insensitively, checked on the
unidecoded, uppercased line) never contributes a ShiftRecord to the
accumulated results, whatever the rest of the line contains. -/
theorem c7_off_line_never_emits (month year : Nat) (st : List Row × Option String)
    (line : String)
    (hoff : containsSub ['O', 'F', 'F'] (pyUpper (unidecodeStr line)).data = true) :
    (pdfStep month year st line).1 = st.1 := by
  cases h1 : searchDay true (unidecodeStr line).data <;>
    cases h2 : searchTimePair (unidecodeStr line).data <;>
      simp [pdfStep, h1, h2, hoff]

/-- C7 witness: the line "5 MA OFF 09:00-17:00" matches both the
day-of-week pattern and the time-range pattern, yet produces no record. -/
theorem c7_witness :
    (searchDay true (unidecodeStr "5 MA OFF 09:00-17:00").data).isSome = true ∧
    (searchTimePair (unidecodeStr "5 MA OFF 09:00-17:00").data).isSome = true ∧
    (pdfStep 3 2024 ([], none) "5 MA OFF 09:00-17:00").1 = [] :=
  ⟨by decide, by decide,
   c7_off_line_never_emits 3 2024 ([], none) "5 MA OFF 09:00-17:00" (by decide)⟩

end Planner2Ics

namespace Planner2Ics

/-- eventOfRow on a row whose date and times parse and whose times are
in range yields exactly the built event. -/
theorem eventOfRow_ok (cfg : Config) (r : Row) (d : Date) (sh sm eh em : Int)
    (hd : pd_to_datetime r.date = some d)
    (hs : parse_hm r.start = some (sh, sm))
    (he : parse_hm r.«end» = some (eh, em))
    (hso : timeFieldOk sh sm) (heo : timeFieldOk eh em) :
    eventOfRow cfg r = .ok (some (buildEvent cfg d sh.toNat sm.toNat eh.toNat em.toNat r)) := by
  have h1 : eventOfRow cfg r =
      (if timeFieldOk sh sm then
        if timeFieldOk eh em then
          .ok (some (buildEvent cfg d sh.toNat sm.toNat eh.toNat em.toNat r))
        else .error "ValueError: end time out of range"
      else .error "ValueError: start time out of range") := by
    unfold eventOfRow
    rw [hd, hs, he]
  rw [h1, if_pos hso, if_pos heo]

theorem buildEvent_dtstart (cfg : Config) (d : Date) (sh sm eh em : Nat) (r : Row) :
    (buildEvent cfg d sh sm eh em r).dtstart = ⟨d, sh, sm⟩ := by
  unfold buildEvent
  by_cases hf : cfg.force_local_times <;> simp [hf]

theorem buildEvent_dtend (cfg : Config) (d : Date) (sh sm eh em : Nat) (r : Row) :
    (buildEvent cfg d sh sm eh em r).dtend =
      (if DateTime.le ⟨d, eh, em⟩ ⟨d, sh, sm⟩ then (⟨nextDay d, eh, em⟩ : DateTime)
       else ⟨d, eh, em⟩) := by
  unfold buildEvent
  by_cases hf : cfg.force_local_times <;> simp [hf]

/-- C1: for every record with a parseable date and parseable, in-range
times, in both floating and zoned mode (cfg arbitrary), the built event
starts on the parsed date, and its dtend falls on the next calendar day
exactly when the end time is numerically less than or equal to the start
time, otherwise on the same date. -/
theorem c1_midnight_crossing (cfg : Config) (r : Row) (d : Date)
    (sh sm eh em : Int) (ev : VEvent)
    (hd : pd_to_datetime r.date = some d)
    (hs : parse_hm r.start = some (sh, sm))
    (he : parse_hm r.«end» = some (eh, em))
    (hso : timeFieldOk sh sm) (heo : timeFieldOk eh em)
    (hev : ev = buildEvent cfg d sh.toNat sm.toNat eh.toNat em.toNat r) :
    eventOfRow cfg r = .ok (some ev) ∧
    ev.dtstart.date = d ∧
    ev.dtend.date = (if eh * 60 + em ≤ sh * 60 + sm then nextDay d else d) := by
  subst hev
  refine ⟨eventOfRow_ok cfg r d sh sm eh em hd hs he hso heo, ?_, ?_⟩
  · rw [buildEvent_dtstart]
  · obtain ⟨hs1, hs2, hs3, hs4⟩ := hso
    obtain ⟨he1, he2, he3, he4⟩ := heo
    have hcond : (DateTime.le ⟨d, eh.toNat, em.toNat⟩ ⟨d, sh.toNat, sm.toNat⟩ = true) ↔
        (eh * 60 + em ≤ sh * 60 + sm) := by
      simp only [DateTime.le, DateTime.key, decide_eq_true_eq]
      omega
    by_cases hle : eh * 60 + em ≤ sh * 60 + sm
    · rw [buildEvent_dtend, if_pos (hcond.mpr hle), if_pos hle]
    · rw [buildEvent_dtend, if_neg (fun hc => hle (hcond.mp hc)), if_neg hle]

/-- C1 witness: the spec's round-trip scenario (2024-03-05, 22:00-06:00,
floating mode): the event is built and dtend lands on 2024-03-06. -/
theorem c1_witness :
    eventOfRow ⟨"UTC", 1, "dagen", true, true⟩
        ⟨"2024-03-05", "22:00", "06:00", "", "Main Office", ""⟩ =
      .ok (some (buildEvent ⟨"UTC", 1, "dagen", true, true⟩ ⟨2024, 3, 5⟩
        (Int.toNat 22) (Int.toNat 0) (Int.toNat 6) (Int.toNat 0)
        ⟨"2024-03-05", "22:00", "06:00", "", "Main Office", ""⟩)) ∧
    (buildEvent ⟨"UTC", 1, "dagen", true, true⟩ ⟨2024, 3, 5⟩
        (Int.toNat 22) (Int.toNat 0) (Int.toNat 6) (Int.toNat 0)
        ⟨"2024-03-05", "22:00", "06:00", "", "Main Office", ""⟩).dtend.date =
      ⟨2024, 3, 6⟩ := by
  have h := c1_midnight_crossing ⟨"UTC", 1, "dagen", true, true⟩
    ⟨"2024-03-05", "22:00", "06:00", "", "Main Office", ""⟩ ⟨2024, 3, 5⟩
    22 0 6 0 _ rfl rfl rfl (by refine ⟨?_, ?_, ?_, ?_⟩ <;> omega)
    (by refine ⟨?_, ?_, ?_, ?_⟩ <;> omega) rfl
  refine ⟨h.1, ?_⟩
  rw [h.2.2, if_pos (by omega : (6 : Int) * 60 + 0 ≤ 22 * 60 + 0)]
  decide

/-- C2 counterexample. The spec claims a row whose start or end time
fails to parse is silently omitted; in fact df_to_ics has no handler
there, so a single row with a parseable date but unparseable start time
aborts the whole export with an uncaught ValueError instead of being
skipped. -/
theorem c2_counterexample :
    df_to_ics ⟨"UTC", 1, "dagen", true, true⟩
        [⟨"2024-03-05", "xx", "06:00", "", "", ""⟩] =
      .error "ValueError: invalid start time" := by rfl

/-- C2 (amended): a row whose DATE fails to parse is silently dropped and
the remaining rows are still exported; but a row whose start (or end)
time fails to parse is fatal: df_to_ics aborts with an uncaught
exception. -/
theorem c2_row_failure_policy_amended (cfg : Config) (r1 r2 : Row)
    (rs rs2 : List Row) (d : Date)
    (h1 : pd_to_datetime r1.date = none)
    (h2 : pd_to_datetime r2.date = some d)
    (h3 : parse_hm r2.start = none) :
    df_to_ics cfg (r1 :: rs) = df_to_ics cfg rs ∧
    df_to_ics cfg (r2 :: rs2) = .error "ValueError: invalid start time" := by
  constructor
  · show (do
      let ev? ← eventOfRow cfg r1
      let rest ← df_to_ics cfg rs
      pure (match ev? with | none => rest | some e => e :: rest)) = df_to_ics cfg rs
    rw [show eventOfRow cfg r1 = .ok none by unfold eventOfRow; rw [h1]]
    cases df_to_ics cfg rs <;> rfl
  · show (do
      let ev? ← eventOfRow cfg r2
      let rest ← df_to_ics cfg rs2
      pure (match ev? with | none => rest | some e => e :: rest)) =
        .error "ValueError: invalid start time"
    rw [show eventOfRow cfg r2 = .error "ValueError: invalid start time" by
      unfold eventOfRow; rw [h2, h3]]
    rfl

/-- C2 witness: a bad-date row is dropped while the table keeps being
processed, and a bad-start-time row aborts the export. -/
theorem c2_witness :
    df_to_ics ⟨"UTC", 1, "dagen", true, true⟩
        [⟨"bad date", "09:00", "17:00", "", "", ""⟩,
         ⟨"2024-03-05", "xx", "06:00", "", "", ""⟩] =
      df_to_ics ⟨"UTC", 1, "dagen", true, true⟩
        [⟨"2024-03-05", "xx", "06:00", "", "", ""⟩] ∧
    df_to_ics ⟨"UTC", 1, "dagen", true, true⟩
        [⟨"2024-03-05", "xx", "06:00", "", "", ""⟩] =
      .error "ValueError: invalid start time" :=
  c2_row_failure_policy_amended ⟨"UTC", 1, "dagen", true, true⟩
    ⟨"bad date", "09:00", "17:00", "", "", ""⟩
    ⟨"2024-03-05", "xx", "06:00", "", "", ""⟩
    [⟨"2024-03-05", "xx", "06:00", "", "", ""⟩] [] ⟨2024, 3, 5⟩ rfl rfl rfl

end Planner2Ics

namespace Planner2Ics

/-- C6: the uid of a built event is the SHA-1 hex digest of exactly the
tuple (day-of-month, start, end, title, location), joined with "-" and
concatenated with the fixed namespace suffix "@planner2ics"; it is
independent of the configuration, of the parsed hour/minute values, and
of the record's month and year: two records agreeing on day-of-month,
start, end, title and location receive the same uid even if month/year
differ, and re-running on identical input reproduces it. -/
theorem c6_uid_content (cfg cfg' : Config) (r r' : Row) (d d' : Date)
    (sh sm eh em sh' sm' eh' em' : Nat)
    (hday : d.day = d'.day) (h1 : r.start = r'.start) (h2 : r.«end» = r'.«end»)
    (h3 : r.title = r'.title) (h4 : r.location = r'.location) :
    (buildEvent cfg d sh sm eh em r).uid = (buildEvent cfg' d' sh' sm' eh' em' r').uid ∧
    (buildEvent cfg d sh sm eh em r).uid =
      sha1_hexdigest (toString d.day ++ "-" ++ r.start ++ "-" ++ r.«end» ++ "-" ++
        (if r.title = "" then "Werkdienst" else r.title) ++ "-" ++ r.location) ++
        "@planner2ics" := by
  have huid : ∀ (c : Config) (dd : Date) (a b e f : Nat) (rr : Row),
      (buildEvent c dd a b e f rr).uid =
        build_uid dd.day rr.start rr.«end»
          (if rr.title = "" then "Werkdienst" else rr.title) rr.location := by
    intro c dd a b e f rr
    unfold buildEvent
    by_cases hf : c.force_local_times <;> simp [hf]
  constructor
  · rw [huid, huid, hday, h1, h2, h3, h4]
  · rw [huid]; rfl

/-- C6 witness: two records on day 5 of different months AND years
(2024-03-05 vs 2025-07-05), exported under different configurations and
with different parsed times, receive the identical uid. -/
theorem c6_witness :
    (buildEvent ⟨"UTC", 1, "dagen", true, true⟩ ⟨2024, 3, 5⟩ 22 0 6 0
        ⟨"2024-03-05", "22:00", "06:00", "Nachtdienst", "Main Office", ""⟩).uid =
    (buildEvent ⟨"Europe/Brussels", 2, "uren", false, false⟩ ⟨2025, 7, 5⟩ 9 30 17 0
        ⟨"2025-07-05", "22:00", "06:00", "Nachtdienst", "Main Office", ""⟩).uid :=
  (c6_uid_content ⟨"UTC", 1, "dagen", true, true⟩ ⟨"Europe/Brussels", 2, "uren", false, false⟩
    ⟨"2024-03-05", "22:00", "06:00", "Nachtdienst", "Main Office", ""⟩
    ⟨"2025-07-05", "22:00", "06:00", "Nachtdienst", "Main Office", ""⟩
    ⟨2024, 3, 5⟩ ⟨2025, 7, 5⟩ 22 0 6 0 9 30 17 0 rfl rfl rfl rfl rfl).1

theorem MONTHS_NL_bounds (s : String) (m : Nat) (h : MONTHS_NL s = some m) :
    1 ≤ m ∧ m ≤ 12 := by
  unfold MONTHS_NL at h
  split_ifs at h <;> (try cases h) <;> simp_all

theorem detect_line_month (l : String) (m y : Nat) (h : detect_line l = some (m, y)) :
    ∃ name, MONTHS_NL name = some m := by
  unfold detect_line at h
  cases hsp : searchPeriode (unidecodeStr (pyUpper l)).data with
  | none => rw [hsp] at h; cases h
  | some p =>
      rw [hsp] at h
      obtain ⟨name, y'⟩ := p
      rw [Option.map_eq_some'] at h
      obtain ⟨mm, hmm, heq⟩ := h
      rw [Prod.mk.injEq] at heq
      obtain ⟨hm', hy'⟩ := heq
      subst hm'
      exact ⟨name, hmm⟩

theorem detect_month_pos (lines : List String) (m y : Nat)
    (h : detect_month_year lines = some (m, y)) : 1 ≤ m := by
  induction lines with
  | nil => cases h
  | cons l ls ih =>
      unfold detect_month_year at h
      cases hdl : detect_line l with
      | none => rw [hdl] at h; exact ih h
      | some p =>
          rw [hdl] at h
          cases h
          obtain ⟨name, hname⟩ := detect_line_month l m y hdl
          exact (MONTHS_NL_bounds name m hname).1

theorem parse_pdf_of_detect (lines : List String) (m y : Nat)
    (h : detect_month_year lines = some (m, y)) :
    parse_pdf_schedule lines =
      (if m = 0 ∨ y = 0 then
        .error "Kon 'Periode : <MAAND> <JAAR>' niet vinden in de PDF."
       else .ok (lines.foldl (pdfStep m y) ([], none)).1) := by
  unfold parse_pdf_schedule
  rw [h]

theorem parse_pdf_of_detect_none (lines : List String)
    (h : detect_month_year lines = none) :
    parse_pdf_schedule lines =
      .error "Kon 'Periode : <MAAND> <JAAR>' niet vinden in de PDF." := by
  unfold parse_pdf_schedule
  rw [h]

/-- C8 counterexample. The spec claims the PDF path fails iff no line
matches the period-header pattern with a month name from the table; the
document ["PERIODE : MAART 0000"] has a line matching the pattern with
the table month MAART (resolving to month 3), yet parse_pdf_schedule
still fails, because int("0000") = 0 is falsy in the "not year" check. -/
theorem c8_counterexample :
    detect_line "PERIODE : MAART 0000" = some (3, 0) ∧
    parse_pdf_schedule ["PERIODE : MAART 0000"] =
      .error "Kon 'Periode : <MAAND> <JAAR>' niet vinden in de PDF." := ⟨rfl, rfl⟩

/-- C8 (amended): parse_pdf_schedule fails iff either no line matches the
period-header pattern with a month name from the fixed Dutch table
(equivalently: detection yields nothing on every line), or the first
matching line's 4-digit year group is "0000" (int value 0); and the
header "Periode : Maart 2024" resolves to month 3, year 2024 and does
not fail. -/
theorem c8_period_header_amended (lines : List String) :
    ((∃ e, parse_pdf_schedule lines = .error e) ↔
      (detect_month_year lines = none ∨ ∃ m, detect_month_year lines = some (m, 0))) ∧
    (detect_month_year lines = none ↔ ∀ l ∈ lines, detect_line l = none) ∧
    detect_line "Periode : Maart 2024" = some (3, 2024) ∧
    parse_pdf_schedule ["Periode : Maart 2024"] = .ok [] := by
  refine ⟨?_, ?_, by rfl, by rfl⟩
  · cases hdet : detect_month_year lines with
    | none =>
        constructor
        · intro _; exact Or.inl rfl
        · intro _
          exact ⟨"Kon 'Periode : <MAAND> <JAAR>' niet vinden in de PDF.",
            parse_pdf_of_detect_none lines hdet⟩
    | some p =>
        obtain ⟨m, y⟩ := p
        have hm := detect_month_pos lines m y hdet
        by_cases hy : y = 0
        · subst hy
          constructor
          · intro _; exact Or.inr ⟨m, rfl⟩
          · intro _
            exact ⟨"Kon 'Periode : <MAAND> <JAAR>' niet vinden in de PDF.", by
              rw [parse_pdf_of_detect lines m 0 hdet, if_pos (Or.inr rfl)]⟩
        · constructor
          · rintro ⟨e, he⟩
            exfalso
            rw [parse_pdf_of_detect lines m y hdet,
              if_neg (by rintro (h0 | h0) <;> omega)] at he
            cases he
          · rintro (hnone | ⟨m', hm'⟩)
            · cases hnone
            · rw [Option.some.injEq, Prod.mk.injEq] at hm'
              exact absurd hm'.2 hy
  · induction lines with
    | nil => simp [detect_month_year]
    | cons l ls ih =>
        unfold detect_month_year
        cases hdl : detect_line l with
        | some p => simp [hdl]
        | none => simp [hdl, ih]

end Planner2Ics

namespace Planner2Ics

theorem foldl_min_le (ds : List Date) (a : Date) :
    dateKey (ds.foldl (fun x b => if dateKey b < dateKey x then b else x) a) ≤ dateKey a ∧
    ∀ b ∈ ds,
      dateKey (ds.foldl (fun x b => if dateKey b < dateKey x then b else x) a) ≤ dateKey b := by
  induction ds generalizing a with
  | nil => simp
  | cons c cs ih =>
      simp only [List.foldl_cons]
      constructor
      · by_cases h : dateKey c < dateKey a
        · rw [if_pos h]; exact le_trans (ih c).1 (le_of_lt h)
        · rw [if_neg h]; exact (ih a).1
      · intro b hb
        rcases List.mem_cons.mp hb with rfl | hb'
        · by_cases h : dateKey b < dateKey a
          · rw [if_pos h]; exact (ih b).1
          · rw [if_neg h]; exact le_trans (ih a).1 (by omega)
        · by_cases h : dateKey c < dateKey a
          · rw [if_pos h]; exact (ih c).2 b hb'
          · rw [if_neg h]; exact (ih a).2 b hb'

/-- When filename derivation succeeds it returns the earliest parsed date. -/
theorem derive_first_date_min (rows : List Row) (d : Date)
    (h : derive_first_date rows = some d) :
    ∀ r ∈ rows, ∀ d', pd_to_datetime r.date = some d' → dateKey d ≤ dateKey d' := by
  intro r hr d' hd'
  unfold derive_first_date at h
  by_cases hall : (rows.map (fun r => pd_to_datetime r.date)).all Option.isSome
  case neg => rw [if_neg hall] at h; cases h
  rw [if_pos hall] at h
  have hmem : d' ∈ (rows.map (fun r => pd_to_datetime r.date)).filterMap id := by
    rw [List.mem_filterMap]
    exact ⟨some d', List.mem_map.mpr ⟨r, hr, hd'⟩, rfl⟩
  cases hl : (rows.map (fun r => pd_to_datetime r.date)).filterMap id with
  | nil => rw [hl] at hmem; cases hmem
  | cons d0 ds =>
      rw [hl] at h hmem
      cases h
      rcases List.mem_cons.mp hmem with rfl | hmem'
      · exact (foldl_min_le ds d').1
      · exact (foldl_min_le ds d0).2 d' hmem'

/-- C9 counterexample. The spec names the filename template
schedule_<year>_<month2digits>.ics; the code derives
planning_<year>_<month2digits>.ics (and falls back to planning.ics),
so the derived name for a 2024-03 schedule is planning_2024_03.ics,
not schedule_2024_03.ics. -/
theorem c9_counterexample :
    export_filename [⟨"2024-03-05", "09:00", "17:00", "T", "", ""⟩] =
      "planning_2024_03.ics" ∧
    ("planning_2024_03.ics" : String) ≠ "schedule_2024_03.ics" := ⟨rfl, by decide⟩

/-- C9 (amended): the suggested filename is derived from the earliest
shift's year and month as planning_<year>_<month2digits>.ics; if
derivation fails, the fixed generic planning.ics is substituted; and in
either case the calendar events themselves are produced unchanged
whenever df_to_ics succeeds — derivation failure never blocks the
export. -/
theorem c9_export_filename_amended (cfg : Config) (rows : List Row) (evs : List VEvent)
    (h : df_to_ics cfg rows = .ok evs) :
    export_block cfg rows = .ok (evs, export_filename rows) ∧
    (∀ d, derive_first_date rows = some d →
      export_filename rows =
        "planning_" ++ toString d.year ++ "_" ++ fmt02 (d.month : Int) ++ ".ics" ∧
      ∀ r ∈ rows, ∀ d', pd_to_datetime r.date = some d' → dateKey d ≤ dateKey d') ∧
    (derive_first_date rows = none → export_filename rows = "planning.ics") := by
  refine ⟨?_, ?_, ?_⟩
  · show (do
      let evs ← df_to_ics cfg rows
      pure (evs, export_filename rows)) = Except.ok (evs, export_filename rows)
    rw [h]; rfl
  · intro d hd
    exact ⟨by unfold export_filename; rw [hd], derive_first_date_min rows d hd⟩
  · intro hd
    unfold export_filename
    rw [hd]

/-- C9 witness: a table whose only row has an unparseable date still
exports (an empty event list here), with the generic fallback name. -/
theorem c9_witness :
    export_block ⟨"UTC", 1, "dagen", true, true⟩ [⟨"no date", "", "", "", "", ""⟩] =
      .ok ([], export_filename [⟨"no date", "", "", "", "", ""⟩]) ∧
    export_filename [⟨"no date", "", "", "", "", ""⟩] = "planning.ics" := by
  have h := c9_export_filename_amended ⟨"UTC", 1, "dagen", true, true⟩
    [⟨"no date", "", "", "", "", ""⟩] [] rfl
  exact ⟨h.1, h.2.2 rfl⟩

end Planner2Ics

namespace Planner2Ics

/-- Complete case analysis of one pdfStep iteration: the location result
is the address-update-or-keep value, and the record list is unchanged or
extended with exactly one record built from the matched groups. -/
theorem pdfStep_cases (month year : Nat) (st : List Row × Option String) (line : String) :
    (pdfStep month year st line).2 =
      (if addressMatch (unidecodeStr line) then some (pyStrip (unidecodeStr line))
       else st.2) ∧
    ((pdfStep month year st line).1 = st.1 ∨
      ∃ ds g1 g2 start_h end_h hh mm,
        searchDay true (unidecodeStr line).data = some ds ∧
        searchTimePair (unidecodeStr line).data = some (g1, g2) ∧
        containsSub ['O', 'F', 'F'] (pyUpper (unidecodeStr line)).data = false ∧
        normalize_time (String.mk g1) = some start_h ∧
        normalize_time (String.mk g2) = some end_h ∧
        pyInt (String.mk (start_h.data.take 2)) = some hh ∧
        pyInt (String.mk (start_h.data.drop 3)) = some mm ∧
        dtOk year month (digitsVal ds 0) hh mm ∧
        (pdfStep month year st line).1 = st.1 ++
          [{ date := Date.iso ⟨year, month, digitsVal ds 0⟩
             start := start_h
             «end» := end_h
             title := (classify_shift start_h).getD ""
             location := (if addressMatch (unidecodeStr line) then
                 some (pyStrip (unidecodeStr line)) else st.2).getD ""
             notes := "" }]) := by
  cases hd : searchDay true (unidecodeStr line).data with
  | none =>
      cases ht : searchTimePair (unidecodeStr line).data with
      | none => simp only [pdfStep, hd, ht]; exact ⟨by simp, Or.inl (by simp)⟩
      | some p => simp only [pdfStep, hd, ht]; exact ⟨by simp, Or.inl (by simp)⟩
  | some ds =>
      cases ht : searchTimePair (unidecodeStr line).data with
      | none => simp only [pdfStep, hd, ht]; exact ⟨by simp, Or.inl (by simp)⟩
      | some p =>
          obtain ⟨g1, g2⟩ := p
          by_cases hoff : containsSub ['O', 'F', 'F'] (pyUpper (unidecodeStr line)).data = true
          · simp only [pdfStep, hd, ht, hoff, if_true]
            exact ⟨by simp, Or.inl (by simp)⟩
          · rw [Bool.not_eq_true] at hoff
            cases hn1 : normalize_time (String.mk g1) with
            | none =>
                simp only [pdfStep, hd, ht, hoff, Bool.false_eq_true, if_false, hn1]
                exact ⟨by simp, Or.inl (by simp)⟩
            | some s_h =>
                cases hn2 : normalize_time (String.mk g2) with
                | none =>
                    simp only [pdfStep, hd, ht, hoff, Bool.false_eq_true, if_false, hn1, hn2]
                    exact ⟨by simp, Or.inl (by simp)⟩
                | some e_h =>
                    cases hp1 : pyInt (String.mk (s_h.data.take 2)) with
                    | none =>
                        simp only [pdfStep, hd, ht, hoff, Bool.false_eq_true, if_false,
                          hn1, hn2, hp1]
                        exact ⟨by simp, Or.inl (by simp)⟩
                    | some hh =>
                        cases hp2 : pyInt (String.mk (s_h.data.drop 3)) with
                        | none =>
                            simp only [pdfStep, hd, ht, hoff, Bool.false_eq_true, if_false,
                              hn1, hn2, hp1, hp2]
                            exact ⟨by simp, Or.inl (by simp)⟩
                        | some mm =>
                            by_cases hok : dtOk year month (digitsVal ds 0) hh mm
                            · refine ⟨by
                                simp only [pdfStep, hd, ht, hoff, Bool.false_eq_true,
                                  if_false, hn1, hn2, hp1, hp2]
                                rw [if_pos hok],
                                Or.inr ⟨ds, g1, g2, s_h, e_h, hh, mm,
                                  rfl, rfl, hoff, hn1, hn2, hp1, hp2, hok, by
                                  simp only [pdfStep, hd, ht, hoff, Bool.false_eq_true,
                                    if_false, hn1, hn2, hp1, hp2]
                                  rw [if_pos hok]⟩⟩
                            · simp only [pdfStep, hd, ht, hoff, Bool.false_eq_true, if_false,
                                hn1, hn2, hp1, hp2, hok]
                              exact ⟨by simp, Or.inl (by simp)⟩

/-- C10 (the behavior the dedented source lines 71-73 document): an
address-matching line replaces the current location with that line's own
normalized, stripped content (never a preceding line's); a non-matching
line leaves it unchanged; and every record emitted by the step carries
the current location value, or "" when none has been seen. -/
theorem c10_location_tracking (month year : Nat) (st : List Row × Option String)
    (line : String) :
    (addressMatch (unidecodeStr line) = true →
      (pdfStep month year st line).2 = some (pyStrip (unidecodeStr line))) ∧
    (addressMatch (unidecodeStr line) = false →
      (pdfStep month year st line).2 = st.2) ∧
    (∀ r ∈ (pdfStep month year st line).1,
      r ∈ st.1 ∨ r.location = ((pdfStep month year st line).2).getD "") := by
  obtain ⟨h2, h1⟩ := pdfStep_cases month year st line
  refine ⟨?_, ?_, ?_⟩
  · intro ha; rw [h2, if_pos ha]
  · intro ha; rw [h2, if_neg (by simp [ha])]
  · intro r hr
    rcases h1 with heq | ⟨ds, g1, g2, s_h, e_h, hh, mm, _, _, _, _, _, _, _, _, happ⟩
    · rw [heq] at hr; exact Or.inl hr
    · rw [happ] at hr
      rcases List.mem_append.mp hr with h | h
      · exact Or.inl h
      · right
        rw [List.mem_singleton] at h
        subst h
        rw [h2]

/-- C10 witness: a line with a postal-code token seen after an earlier
location replaces the location with exactly its own stripped content. -/
theorem c10_witness :
    addressMatch (unidecodeStr "3000 Leuven Centrum") = true ∧
    pyStrip (unidecodeStr "3000 Leuven Centrum") = "3000 Leuven Centrum" ∧
    (pdfStep 3 2024 ([], some "previous location") "3000 Leuven Centrum").2 =
      some (pyStrip (unidecodeStr "3000 Leuven Centrum")) :=
  ⟨by decide, by decide,
   (c10_location_tracking 3 2024 ([], some "previous location")
     "3000 Leuven Centrum").1 (by decide)⟩

end Planner2Ics

namespace Planner2Ics

/-! ## Digit-character arithmetic (towards the extractor invariant) -/

theorem digit_facts (c : Char) (h : isDigitC c = true) :
    pySpace c = false ∧ c ≠ ':' ∧ c ≠ '-' ∧ c ≠ '+' ∧ digitVal c < 10 := by
  unfold isDigitC at h
  rw [Bool.and_eq_true, decide_eq_true_eq, decide_eq_true_eq] at h
  obtain ⟨h1, h2⟩ := h
  refine ⟨?_, ?_, ?_, ?_, ?_⟩
  · by_contra hns
    rw [Bool.not_eq_false] at hns
    unfold pySpace at hns
    simp only [Bool.or_eq_true, decide_eq_true_eq] at hns
    rcases hns with ((((h' | h') | h') | h') | h') | h' <;> subst h' <;>
      exact absurd (And.intro h1 h2) (by decide)
  · rintro rfl; exact absurd (And.intro h1 h2) (by decide)
  · rintro rfl; exact absurd (And.intro h1 h2) (by decide)
  · rintro rfl; exact absurd (And.intro h1 h2) (by decide)
  · unfold digitVal; omega

theorem dropWhile_eq_self_of_not (p : Char → Bool) (l : List Char)
    (h : ∀ c ∈ l, p c = false) : l.dropWhile p = l := by
  cases l with
  | nil => rfl
  | cons a as => rw [List.dropWhile_cons_of_neg (by simp [h a (by simp)])]

theorem stripWS_eq_self (cs : List Char) (h : ∀ c ∈ cs, pySpace c = false) :
    stripWS cs = cs := by
  unfold stripWS
  rw [dropWhile_eq_self_of_not pySpace cs h,
      dropWhile_eq_self_of_not pySpace cs.reverse (by simpa using h),
      List.reverse_reverse]

theorem pyInt_digits (cs : List Char) (hne : cs ≠ [])
    (hall : ∀ c ∈ cs, isDigitC c = true) :
    pyInt (String.mk cs) = some ((digitsVal cs 0 : Nat) : Int) := by
  unfold pyInt
  have hstrip : stripWS (String.mk cs).data = cs :=
    stripWS_eq_self cs (fun c hc => (digit_facts c (hall c hc)).1)
  rw [hstrip]
  have hdig : pyDigits? cs = some (digitsVal cs 0) := by
    unfold pyDigits?
    rw [if_pos]
    rw [Bool.and_eq_true, decide_eq_true_eq]
    exact ⟨hne, List.all_eq_true.mpr hall⟩
  split
  · rename_i x rest
    exact absurd rfl (digit_facts '-' (hall '-' (List.mem_cons_self _ _))).2.2.1
  · rename_i x rest
    exact absurd rfl (digit_facts '+' (hall '+' (List.mem_cons_self _ _))).2.2.2.1
  · rw [hdig]; rfl

end Planner2Ics

namespace Planner2Ics

theorem splitOnC_cons (sep a : Char) (cs : List Char) :
    splitOnC sep (a :: cs) =
      (if a = sep then [] :: splitOnC sep cs
       else match splitOnC sep cs with
            | [] => [[a]]
            | g :: gs => (a :: g) :: gs) := rfl

theorem splitColon_no_colon (l : List Char) (h : ∀ c ∈ l, c ≠ ':') :
    splitColon l = [l] := by
  induction l with
  | nil => rfl
  | cons a as ih =>
      have ha : a ≠ ':' := h a (List.mem_cons_self _ _)
      show splitOnC ':' (a :: as) = [a :: as]
      rw [splitOnC_cons, if_neg ha,
        show splitOnC ':' as = splitColon as from rfl,
        ih (fun c hc => h c (List.mem_cons_of_mem _ hc))]

theorem splitColon_append (h1 m1 : List Char)
    (hh : ∀ c ∈ h1, c ≠ ':') (hm : ∀ c ∈ m1, c ≠ ':') :
    splitColon (h1 ++ ':' :: m1) = [h1, m1] := by
  induction h1 with
  | nil =>
      show splitOnC ':' (':' :: m1) = [[], m1]
      rw [splitOnC_cons, if_pos rfl, show splitOnC ':' m1 = splitColon m1 from rfl,
        splitColon_no_colon m1 hm]
  | cons a h1' ih =>
      have ha : a ≠ ':' := hh a (List.mem_cons_self _ _)
      show splitOnC ':' (a :: (h1' ++ ':' :: m1)) = [a :: h1', m1]
      rw [splitOnC_cons, if_neg ha,
        show splitOnC ':' (h1' ++ ':' :: m1) = splitColon (h1' ++ ':' :: m1) from rfl,
        ih (fun c hc => hh c (List.mem_cons_of_mem _ hc))]

theorem fmt02_data_fin : ∀ n : Fin 100,
    (fmt02 ((n : Nat) : Int)).data =
      [Nat.digitChar ((n : Nat) / 10), Nat.digitChar ((n : Nat) % 10)] := by decide

theorem fmt02_data_of_lt (n : Nat) (h : n < 100) :
    (fmt02 (n : Int)).data = [Nat.digitChar (n / 10), Nat.digitChar (n % 10)] :=
  fmt02_data_fin ⟨n, h⟩

theorem isDigitC_digitChar_fin : ∀ k : Fin 10,
    isDigitC (Nat.digitChar (k : Nat)) = true := by decide

theorem isDigitC_digitChar (k : Nat) (h : k < 10) :
    isDigitC (Nat.digitChar k) = true := isDigitC_digitChar_fin ⟨k, h⟩

theorem digitsVal_digitChar_fin : ∀ n : Fin 100,
    digitsVal [Nat.digitChar ((n : Nat) / 10), Nat.digitChar ((n : Nat) % 10)] 0 =
      (n : Nat) := by decide

theorem digitsVal_digitChar (n : Nat) (h : n < 100) :
    digitsVal [Nat.digitChar (n / 10), Nat.digitChar (n % 10)] 0 = n :=
  digitsVal_digitChar_fin ⟨n, h⟩

theorem data_append (s t : String) : (s ++ t).data = s.data ++ t.data := rfl

theorem isValid24h_fmt (hv mv : Nat) (hhv : hv < 24) (hmv : mv < 60) :
    isValid24h (fmt02 (hv : Int) ++ ":" ++ fmt02 (mv : Int)) = true := by
  unfold isValid24h
  rw [data_append, data_append,
    fmt02_data_of_lt hv (by omega), fmt02_data_of_lt mv (by omega)]
  show (isDigitC (Nat.digitChar (hv / 10)) && isDigitC (Nat.digitChar (hv % 10)) &&
      isDigitC (Nat.digitChar (mv / 10)) && isDigitC (Nat.digitChar (mv % 10)) &&
      decide (digitsVal [Nat.digitChar (hv / 10), Nat.digitChar (hv % 10)] 0 < 24) &&
      decide (digitsVal [Nat.digitChar (mv / 10), Nat.digitChar (mv % 10)] 0 < 60)) = true
  rw [isDigitC_digitChar _ (by omega), isDigitC_digitChar _ (by omega),
    isDigitC_digitChar _ (by omega), isDigitC_digitChar _ (by omega),
    digitsVal_digitChar hv (by omega), digitsVal_digitChar mv (by omega)]
  simp [hhv, hmv]

end Planner2Ics

namespace Planner2Ics

/-- The shape of a group matched by the \d{1,2}:\d{2} pattern. -/
def timeGroup (g : List Char) : Prop :=
  (∃ a b m1 m2, g = [a, b, ':', m1, m2] ∧ isDigitC a = true ∧ isDigitC b = true ∧
    isDigitC m1 = true ∧ isDigitC m2 = true) ∨
  (∃ a m1 m2, g = [a, ':', m1, m2] ∧ isDigitC a = true ∧
    isDigitC m1 = true ∧ isDigitC m2 = true)

theorem digitsVal_two (a b : Char) : digitsVal [a, b] 0 = 10 * digitVal a + digitVal b := by
  show digitsVal [b] (0 * 10 + digitVal a) = _
  show digitsVal [] ((0 * 10 + digitVal a) * 10 + digitVal b) = _
  show (0 * 10 + digitVal a) * 10 + digitVal b = _
  ring

theorem digitsVal_one (a : Char) : digitsVal [a] 0 = digitVal a := by
  show digitsVal [] (0 * 10 + digitVal a) = _
  show 0 * 10 + digitVal a = _
  ring

/-- normalize_time on any \d{1,2}:\d{2} group yields a two-field
02d-formatted string of values below 100. -/
theorem normalize_of_timeGroup (g : List Char) (hg : timeGroup g) :
    ∃ hv mv : Nat, hv < 100 ∧ mv < 100 ∧
      normalize_time (String.mk g) = some (fmt02 (hv : Int) ++ ":" ++ fmt02 (mv : Int)) := by
  rcases hg with ⟨a, b, m1, m2, rfl, ha, hb, hm1, hm2⟩ | ⟨a, m1, m2, rfl, ha, hm1, hm2⟩
  · refine ⟨digitsVal [a, b] 0, digitsVal [m1, m2] 0, ?_, ?_, ?_⟩
    · rw [digitsVal_two]
      have := (digit_facts a ha).2.2.2.2
      have := (digit_facts b hb).2.2.2.2
      omega
    · rw [digitsVal_two]
      have := (digit_facts m1 hm1).2.2.2.2
      have := (digit_facts m2 hm2).2.2.2.2
      omega
    · unfold normalize_time
      have hstrip : stripWS (String.mk [a, b, ':', m1, m2]).data = [a, b, ':', m1, m2] := by
        refine stripWS_eq_self _ ?_
        intro c hc
        simp only [List.mem_cons, List.not_mem_nil, or_false] at hc
        rcases hc with rfl | rfl | rfl | rfl | rfl
        · exact (digit_facts c ha).1
        · exact (digit_facts c hb).1
        · decide
        · exact (digit_facts c hm1).1
        · exact (digit_facts c hm2).1
      have hsp : splitColon [a, b, ':', m1, m2] = [[a, b], [m1, m2]] := by
        refine splitColon_append [a, b] [m1, m2] ?_ ?_
        · intro c hc
          simp only [List.mem_cons, List.not_mem_nil, or_false] at hc
          rcases hc with rfl | rfl
          · exact (digit_facts c ha).2.1
          · exact (digit_facts c hb).2.1
        · intro c hc
          simp only [List.mem_cons, List.not_mem_nil, or_false] at hc
          rcases hc with rfl | rfl
          · exact (digit_facts c hm1).2.1
          · exact (digit_facts c hm2).2.1
      rw [hstrip, hsp]
      have hp1 : pyInt (String.mk [a, b]) = some ((digitsVal [a, b] 0 : Nat) : Int) := by
        refine pyInt_digits [a, b] (by simp) ?_
        intro c hc
        simp only [List.mem_cons, List.not_mem_nil, or_false] at hc
        rcases hc with rfl | rfl
        · exact ha
        · exact hb
      have hp2 : pyInt (String.mk [m1, m2]) = some ((digitsVal [m1, m2] 0 : Nat) : Int) := by
        refine pyInt_digits [m1, m2] (by simp) ?_
        intro c hc
        simp only [List.mem_cons, List.not_mem_nil, or_false] at hc
        rcases hc with rfl | rfl
        · exact hm1
        · exact hm2
      simp only [hp1, hp2, Option.bind_eq_bind, Option.some_bind]
      rfl
  · refine ⟨digitsVal [a] 0, digitsVal [m1, m2] 0, ?_, ?_, ?_⟩
    · rw [digitsVal_one]
      have := (digit_facts a ha).2.2.2.2
      omega
    · rw [digitsVal_two]
      have := (digit_facts m1 hm1).2.2.2.2
      have := (digit_facts m2 hm2).2.2.2.2
      omega
    · unfold normalize_time
      have hstrip : stripWS (String.mk [a, ':', m1, m2]).data = [a, ':', m1, m2] := by
        refine stripWS_eq_self _ ?_
        intro c hc
        simp only [List.mem_cons, List.not_mem_nil, or_false] at hc
        rcases hc with rfl | rfl | rfl | rfl
        · exact (digit_facts c ha).1
        · decide
        · exact (digit_facts c hm1).1
        · exact (digit_facts c hm2).1
      have hsp : splitColon [a, ':', m1, m2] = [[a], [m1, m2]] := by
        refine splitColon_append [a] [m1, m2] ?_ ?_
        · intro c hc
          simp only [List.mem_cons, List.not_mem_nil, or_false] at hc
          rcases hc with rfl
          exact (digit_facts c ha).2.1
        · intro c hc
          simp only [List.mem_cons, List.not_mem_nil, or_false] at hc
          rcases hc with rfl | rfl
          · exact (digit_facts c hm1).2.1
          · exact (digit_facts c hm2).2.1
      rw [hstrip, hsp]
      have hp1 : pyInt (String.mk [a]) = some ((digitsVal [a] 0 : Nat) : Int) := by
        refine pyInt_digits [a] (by simp) ?_
        intro c hc
        simp only [List.mem_cons, List.not_mem_nil, or_false] at hc
        rcases hc with rfl
        exact ha
      have hp2 : pyInt (String.mk [m1, m2]) = some ((digitsVal [m1, m2] 0 : Nat) : Int) := by
        refine pyInt_digits [m1, m2] (by simp) ?_
        intro c hc
        simp only [List.mem_cons, List.not_mem_nil, or_false] at hc
        rcases hc with rfl | rfl
        · exact hm1
        · exact hm2
      simp only [hp1, hp2, Option.bind_eq_bind, Option.some_bind]
      rfl

end Planner2Ics

namespace Planner2Ics

theorem matchOneTime_timeGroup (cs g rest : List Char)
    (h : matchOneTime cs = some (g, rest)) : timeGroup g := by
  unfold matchOneTime at h
  split at h
  · rename_i a b c rest0
    split at h
    · rename_i hcond
      rw [Bool.and_eq_true, Bool.and_eq_true, decide_eq_true_eq] at hcond
      obtain ⟨⟨ha, hb⟩, hc⟩ := hcond
      subst hc
      split at h
      · rename_i m1 m2 rest2
        split at h
        · rename_i hmm
          rw [Bool.and_eq_true] at hmm
          cases h
          exact Or.inl ⟨a, b, m1, m2, rfl, ha, hb, hmm.1, hmm.2⟩
        · cases h
      · cases h
    · split at h
      · rename_i hcond2
        rw [Bool.and_eq_true, decide_eq_true_eq] at hcond2
        obtain ⟨ha, hb⟩ := hcond2
        subst hb
        split at h
        · rename_i m2 rest2
          split at h
          · rename_i hmm
            rw [Bool.and_eq_true] at hmm
            cases h
            exact Or.inr ⟨a, c, m2, rfl, ha, hmm.1, hmm.2⟩
          · cases h
        · cases h
      · cases h
  · cases h

theorem matchTimePair_timeGroup (cs g1 g2 : List Char)
    (h : matchTimePair cs = some (g1, g2)) : timeGroup g1 ∧ timeGroup g2 := by
  unfold matchTimePair at h
  cases h1 : matchOneTime cs with
  | none => rw [h1] at h; cases h
  | some p =>
      obtain ⟨g1', r1⟩ := p
      rw [h1] at h
      simp only [Option.bind_eq_bind, Option.some_bind] at h
      split at h
      · rename_i c r2 heq
        split at h
        · cases h2 : matchOneTime (r2.dropWhile pySpace) with
          | none => rw [h2] at h; cases h
          | some q =>
              obtain ⟨g2', r3⟩ := q
              rw [h2] at h
              simp only [Option.bind_eq_bind, Option.some_bind] at h
              cases h
              exact ⟨matchOneTime_timeGroup cs g1 r1 h1,
                     matchOneTime_timeGroup _ g2 r3 h2⟩
        · cases h
      · cases h

theorem searchTimePair_timeGroup (cs g1 g2 : List Char)
    (h : searchTimePair cs = some (g1, g2)) : timeGroup g1 ∧ timeGroup g2 := by
  induction cs with
  | nil => cases h
  | cons c cs ih =>
      unfold searchTimePair at h
      split at h
      · rename_i r heq
        cases h
        exact matchTimePair_timeGroup _ _ _ heq
      · exact ih h

end Planner2Ics

namespace Planner2Ics

theorem fmt_pair_take_drop (hv mv : Nat) (h1 : hv < 100) (h2 : mv < 100) :
    (fmt02 (hv : Int) ++ ":" ++ fmt02 (mv : Int)).data.take 2 =
      [Nat.digitChar (hv / 10), Nat.digitChar (hv % 10)] ∧
    (fmt02 (hv : Int) ++ ":" ++ fmt02 (mv : Int)).data.drop 3 =
      [Nat.digitChar (mv / 10), Nat.digitChar (mv % 10)] := by
  rw [data_append, data_append, fmt02_data_of_lt hv h1, fmt02_data_of_lt mv h2]
  constructor <;> rfl

/-- The invariant of C4 on one extractor record: the start field is a
valid zero-padded 24-hour time and the date field is the ISO rendering
of a valid calendar date. -/
def recOk (r : Row) : Prop :=
  isValid24h r.start = true ∧
  ∃ dd : Date, r.date = Date.iso dd ∧ dateOk dd.year dd.month dd.day

theorem pdfStep_recOk (month year : Nat) (st : List Row × Option String) (line : String)
    (hprev : ∀ r ∈ st.1, recOk r) :
    ∀ r ∈ (pdfStep month year st line).1, recOk r := by
  obtain ⟨-, h1⟩ := pdfStep_cases month year st line
  rcases h1 with heq |
    ⟨ds, g1, g2, s_h, e_h, hh, mm, hd, ht, hoff, hn1, hn2, hp1, hp2, hok, happ⟩
  · rw [heq]; exact hprev
  · rw [happ]
    intro r hr
    rcases List.mem_append.mp hr with hmem | hmem
    · exact hprev r hmem
    · rw [List.mem_singleton] at hmem
      subst hmem
      have hg1 := (searchTimePair_timeGroup _ _ _ ht).1
      obtain ⟨hv, mv, hv100, mv100, heqn⟩ := normalize_of_timeGroup g1 hg1
      rw [hn1, Option.some.injEq] at heqn
      subst heqn
      obtain ⟨htake, hdrop⟩ := fmt_pair_take_drop hv mv hv100 mv100
      rw [htake] at hp1
      rw [hdrop] at hp2
      have hpa : pyInt (String.mk [Nat.digitChar (hv / 10), Nat.digitChar (hv % 10)]) =
          some ((digitsVal [Nat.digitChar (hv / 10), Nat.digitChar (hv % 10)] 0 : Nat) : Int) := by
        refine pyInt_digits _ (by simp) ?_
        intro c hc
        simp only [List.mem_cons, List.not_mem_nil, or_false] at hc
        rcases hc with rfl | rfl
        · exact isDigitC_digitChar _ (by omega)
        · exact isDigitC_digitChar _ (by omega)
      have hpb : pyInt (String.mk [Nat.digitChar (mv / 10), Nat.digitChar (mv % 10)]) =
          some ((digitsVal [Nat.digitChar (mv / 10), Nat.digitChar (mv % 10)] 0 : Nat) : Int) := by
        refine pyInt_digits _ (by simp) ?_
        intro c hc
        simp only [List.mem_cons, List.not_mem_nil, or_false] at hc
        rcases hc with rfl | rfl
        · exact isDigitC_digitChar _ (by omega)
        · exact isDigitC_digitChar _ (by omega)
      rw [hpa, digitsVal_digitChar hv hv100, Option.some.injEq] at hp1
      rw [hpb, digitsVal_digitChar mv mv100, Option.some.injEq] at hp2
      obtain ⟨hdate, hh0, hh24, hm0, hm60⟩ := hok
      constructor
      · exact isValid24h_fmt hv mv (by omega) (by omega)
      · exact ⟨⟨year, month, digitsVal ds 0⟩, rfl, hdate⟩

theorem pdfFold_recOk (month year : Nat) (lines : List String)
    (st : List Row × Option String) (hprev : ∀ r ∈ st.1, recOk r) :
    ∀ r ∈ (lines.foldl (pdfStep month year) st).1, recOk r := by
  induction lines generalizing st with
  | nil => exact hprev
  | cons l ls ih => exact ih _ (pdfStep_recOk month year st l hprev)

/-- C4 counterexample. The spec claims every record emitted by the PDF
extractor has valid start AND end times; the extractor validates only
the start time (through the datetime construction for dtstart), so the
line "5 MA 09:00-25:61" emits a record whose end field is the invalid
time "25:61". -/
theorem c4_counterexample :
    parse_pdf_schedule ["Periode : Maart 2024", "5 MA 09:00-25:61"] =
      .ok [{ date := "2024-03-05", start := "09:00", «end» := "25:61",
             title := "Dagdienst", location := "Periode : Maart 2024", notes := "" }] ∧
    isValid24h "25:61" = false := ⟨rfl, rfl⟩

/-- C4 (amended): every record emitted by the PDF extractor has a START
time that is a valid zero-padded 24-hour wall-clock time and a date that
is the ISO rendering of a valid calendar date (records with an invalid
day for the detected month/year are dropped); the END time, however, is
NOT validated and may be out of range. -/
theorem c4_record_invariant_amended (lines : List String) (recs : List Row)
    (h : parse_pdf_schedule lines = .ok recs) :
    ∀ r ∈ recs, isValid24h r.start = true ∧
      ∃ dd : Date, r.date = Date.iso dd ∧ dateOk dd.year dd.month dd.day := by
  cases hdet : detect_month_year lines with
  | none => rw [parse_pdf_of_detect_none lines hdet] at h; cases h
  | some p =>
      obtain ⟨m, y⟩ := p
      rw [parse_pdf_of_detect lines m y hdet] at h
      by_cases h0 : m = 0 ∨ y = 0
      · rw [if_pos h0] at h; cases h
      · rw [if_neg h0] at h
        rw [Except.ok.injEq] at h
        subst h
        exact pdfFold_recOk m y lines ([], none) (by intro r hr; cases hr)

/-- C4 witness: the amended invariant evaluated on a concrete parse. -/
theorem c4_witness :
    isValid24h ({ date := "2024-03-05", start := "09:00", «end» := "17:30",
                  title := "Dagdienst", location := "Periode : Maart 2024",
                  notes := "" } : Row).start = true := by
  have h := c4_record_invariant_amended ["Periode : Maart 2024", "5 MA 09:00-17:30"]
    [{ date := "2024-03-05", start := "09:00", «end» := "17:30",
       title := "Dagdienst", location := "Periode : Maart 2024", notes := "" }] rfl
  exact (h _ (List.mem_singleton_self _)).1

end Planner2Ics
